import Mathlib

/-!
Verification of the 388-Client input-capture and session state machine
(`388_client.py`).  The definitions below are a shallow embedding of the
source: each Lean definition mirrors one Python function or constant and is
named after it.  Strings model Python strings, `Rat` models the wall-clock
seconds used by the debouncer, and the HTTP layer is modelled by summing
over the possible transport outcomes.
-/

/-! ## Generic string helpers (Python `in`, `str.lower`) -/

/-- Boolean test that one list is a prefix of another. -/
def listPrefixB {α : Type} [DecidableEq α] : List α → List α → Bool
  | [], _ => true
  | _ :: _, [] => false
  | a :: as, b :: bs => a = b && listPrefixB as bs

/-- Boolean test that the first list occurs contiguously inside the second. -/
def listInfixB {α : Type} [DecidableEq α] : List α → List α → Bool
  | needle, [] => needle.isEmpty
  | needle, hay@(_ :: t) => listPrefixB needle hay || listInfixB needle t

/-- Python `pat in s` (substring containment). -/
def strContains (s pat : String) : Bool := listInfixB pat.data s.data

/-- Python `str.lower()` restricted to the character-wise ASCII case used by
the client (server status texts are ASCII). -/
def strLower (s : String) : String := ⟨s.data.map Char.toLower⟩

/-! ## Persisted configuration (`config.json` contents used by the client) -/

/-- The keybind configuration written by `_save_new_config` and read at
launch: keys `keybind`, `auth_token`, `local_instance`. -/
structure Cfg where
  keybind : String
  authToken : String
  localInstance : String
  deriving DecidableEq

/-! ## The `App` state relevant to the session / capture state machines -/

/-- The three values `self.current_handler` can hold besides `None`:
`_handle_capture`, `_handle_activation`, `_handle_trigger`. -/
inductive Handler where
  | capture
  | activation
  | trigger
  deriving DecidableEq

/-- The status last shown by `update_status_display` (the session state). -/
inductive UIStatus where
  | inactive
  | activated
  | inSession
  | error (msg : String)
  deriving DecidableEq

/-- The mutable `App` fields driving the state machine: `current_handler`,
the displayed status, `is_active_session`, `first_press`, `cfg`, and whether
the status-poll thread has been started. -/
structure St where
  handler : Option Handler
  status : UIStatus
  isActive : Bool
  firstPress : Option String
  cfg : Option Cfg
  poller : Bool
  deriving DecidableEq

/-- Observable effects of one step: HTTP calls issued, chimes played
(`_play_enter` / `_play_exit`), and dialogs shown (`MessageDialog`). -/
inductive Out where
  | callActivate
  | callTrigger
  | chimeEnter
  | chimeExit
  | dialog (title : String) (msg : String)
  deriving DecidableEq

/-- `App.update_status_display` (the branches that mutate state; the
`info_activate` label text is not modelled). -/
def updateStatusDisplay (s : St) (status : String) (message : Option String) : St :=
  if status = "inactive" then { s with status := UIStatus.inactive, isActive := false }
  else if status = "activated" then { s with status := UIStatus.activated, isActive := true }
  else if status = "in_session" then { s with status := UIStatus.inSession }
  else if status = "error" then { s with status := UIStatus.error (message.getD "") }
  else s

/-! ## Capture phase (`_handle_capture` / `_update_capture_ui`) -/

/-- `App._update_capture_ui`: the two-press confirm protocol.  A first press
records the token; a matching second press completes capture (the handler is
cleared, the recorded token is kept as the binding); a mismatch discards the
recorded token. -/
def updateCaptureUI (s : St) (code : String) : St :=
  match s.firstPress with
  | none => { s with firstPress := some code }
  | some fp =>
      if code = fp then { s with handler := none }
      else { s with firstPress := none }

/-! ## Session phase handlers -/

/-- The state change and calls performed by `App._handle_activation` up to
the point where the blocking `_http_activate` call is issued: on a keybind
match the handler is set to `None` (the in-source comment reads `Prevent
multiple activation requests`) and the activate call goes out. -/
def handleActivationBegin (s : St) (code : String) : St × List Out :=
  match s.cfg with
  | some c =>
      if code = c.keybind then ({ s with handler := none }, [Out.callActivate])
      else (s, [])
  | none => (s, [])

/-- `App._on_activation_result`: on success show Activated, install
`_handle_trigger` and start the status-poll thread; on failure show the
failure dialog and re-install `_handle_activation`. -/
def onActivationResult (s : St) (success : Bool) (message : String) : St × List Out :=
  if success then
    ({ updateStatusDisplay s "activated" none with
        handler := some Handler.trigger, poller := true }, [])
  else
    ({ s with handler := some Handler.activation },
     [Out.dialog "Activation Failed" message])

/-- The state change and calls performed by `App._handle_trigger` up to the
point where the blocking `_http_trigger` call is issued: on a keybind match
the trigger call goes out and the handler is left installed. -/
def handleTriggerBegin (s : St) (code : String) : St × List Out :=
  match s.cfg with
  | some c =>
      if code = c.keybind then (s, [Out.callTrigger])
      else (s, [])
  | none => (s, [])

/-- The tail of `App._handle_trigger` once the response text is known:
`started` enters the session, otherwise `ended` or `left` exits it,
otherwise nothing happens. -/
def onTriggerResult (s : St) (resp : String) : St × List Out :=
  if strContains resp "started" then
    (updateStatusDisplay s "in_session" none, [Out.chimeEnter])
  else if strContains resp "ended" || strContains resp "left" then
    (updateStatusDisplay s "activated" none, [Out.chimeExit])
  else (s, [])

/-- `App._dispatch_action`: the single entry point for all dispatched
keybind firings; a `None` handler drops the firing. -/
def dispatchAction (s : St) (code : String) : St × List Out :=
  match s.handler with
  | none => (s, [])
  | some Handler.capture => (updateCaptureUI s code, [])
  | some Handler.activation => handleActivationBegin s code
  | some Handler.trigger => handleTriggerBegin s code

/-- A sequence of dispatched firings with no intervening remote-call
results, accumulating the emitted effects. -/
def runDispatches (s : St) : List String → St × List Out
  | [] => (s, [])
  | code :: rest =>
      let r := dispatchAction s code
      let rr := runDispatches r.1 rest
      (rr.1, r.2 ++ rr.2)

/-! ## Server revocation (`_status_poll_loop` / `_on_deactivated_by_server`) -/

/-- `App._on_deactivated_by_server`: revocation dialog, status back to
Inactive, `_handle_activation` re-installed. -/
def onDeactivatedByServer (s : St) : St × List Out :=
  ({ updateStatusDisplay s "inactive" none with handler := some Handler.activation },
   [Out.dialog "Deactivated" "Server revoked your Team-Lead role."])

/-- One iteration of `App._status_poll_loop` after its sleep, given the
polled `is_lead` value.  The third component is whether the loop continues
(`false` models `break`). -/
def pollStep (s : St) (isLead : Bool) : St × List Out × Bool :=
  if s.cfg = none ∨ s.isActive = false then (s, [], false)
  else if isLead = false then
    let r := onDeactivatedByServer s
    (r.1, Out.chimeExit :: r.2, false)
  else (s, [], true)

/-! ## HTTP layer (`_http_activate`, `_http_trigger`, `_http_am_i_lead`) -/

/-- Possible outcomes of the POST in `_http_activate`. -/
inductive ActivateOutcome where
  | ok (text : String)
  | httpErr (text : String) (reason : String)
  | exn (msg : String)
  deriving DecidableEq

/-- `_http_activate`: `(True, r.text)` when `r.ok`, otherwise
`(False, r.text or r.reason)`; `(False, str(e))` on exception. -/
def httpActivate : ActivateOutcome → Bool × String
  | ActivateOutcome.ok t => (true, t)
  | ActivateOutcome.httpErr t reason => (false, if t = "" then reason else t)
  | ActivateOutcome.exn m => (false, m)

/-- Possible outcomes of the POST in `_http_trigger`. -/
inductive TriggerOutcome where
  | ok (text : String)
  | exn (msg : String)
  deriving DecidableEq

/-- `_http_trigger`: the lowercased response text, or an `error:` string on
exception. -/
def httpTrigger : TriggerOutcome → String
  | TriggerOutcome.ok t => strLower t
  | TriggerOutcome.exn m => "error: " ++ m

/-- Errors swallowed by the `try` in `_http_am_i_lead`: a transport failure
of the GET, or a body that fails to parse as JSON. -/
inductive PollErr where
  | transport (msg : String)
  | parse (msg : String)
  deriving DecidableEq

/-- Possible outcomes of the GET in `_http_am_i_lead`: a parsed JSON body
whose `is_lead` key may be absent, or an error. -/
inductive PollOutcome where
  | ok (isLeadField : Option Bool)
  | exn (e : PollErr)
  deriving DecidableEq

/-- `_http_am_i_lead`: `r.json().get("is_lead", False)` with every
exception mapped to `False`. -/
def httpAmILead : PollOutcome → Bool
  | PollOutcome.ok f => f.getD false
  | PollOutcome.exn _ => false

/-! ## Concrete states used by witnesses and counterexamples -/

/-- A configuration with keybind `k`. -/
def cfg0 : Cfg := { keybind := "k", authToken := "tok", localInstance := "false" }

/-- The post-launch state built by `_build_main_ui` when a config exists:
handler `_handle_activation`, status Inactive. -/
def initialMainState (c : Cfg) : St :=
  { handler := some Handler.activation, status := UIStatus.inactive,
    isActive := false, firstPress := none, cfg := some c, poller := false }

/-- The first-run state built by `_build_setup_ui`: handler
`_handle_capture`, no config. -/
def setupState : St :=
  { handler := some Handler.capture, status := UIStatus.inactive,
    isActive := false, firstPress := none, cfg := none, poller := false }

/-- The state after a successful activation (handler `_handle_trigger`). -/
def activatedState : St :=
  { handler := some Handler.trigger, status := UIStatus.activated,
    isActive := true, firstPress := none, cfg := some cfg0, poller := true }

/-- The state after a `started` trigger response (in session). -/
def inSessionState : St :=
  { handler := some Handler.trigger, status := UIStatus.inSession,
    isActive := true, firstPress := none, cfg := some cfg0, poller := true }

/-! ## Keyboard canonicalizer (`KeybindListener._get_hotkey_str`) -/

/-- A canonical pynput key as held in `pressed_keys`: a `keyboard.KeyCode`
(virtual key code plus optional character) or a `keyboard.Key` member. -/
inductive PKey where
  | keyCode (vk : Nat) (char : Option Char)
  | key (name : String)
  deriving DecidableEq

/-- A single-quote character, written by code point to keep string literals
plain. -/
def squote : String := String.singleton (Char.ofNat 39)

/-- Python `str(k)` for a pynput key: `repr(char)` for a `KeyCode` with a
character, an angle-bracketed virtual key code otherwise, and the dotted
enum name for `keyboard.Key`. -/
def keyRepr : PKey → String
  | PKey.keyCode vk none => "<" ++ toString vk ++ ">"
  | PKey.keyCode _ (some c) => squote ++ String.singleton c ++ squote
  | PKey.key n => "Key." ++ n

/-- The loop body of `_get_hotkey_str`: a `KeyCode` with a character is
rendered quoted, a `keyboard.Key` is rendered via `str`, and a `KeyCode`
without a character is skipped. -/
def fmtKey : PKey → Option String
  | PKey.keyCode _ (some c) => some (squote ++ String.singleton c ++ squote)
  | PKey.keyCode _ none => none
  | PKey.key n => some ("Key." ++ n)

/-- Lexicographic comparison of character lists by code point, the order
Python uses to compare strings. -/
def charListLe : List Char → List Char → Bool
  | [], _ => true
  | _ :: _, [] => false
  | a :: as, b :: bs =>
      if a = b then charListLe as bs else decide (a.toNat < b.toNat)

/-- Python string `<=` (lexicographic by code point). -/
def pyStrLe (a b : String) : Prop := charListLe a.data b.data = true

instance : DecidableRel pyStrLe := fun a b =>
  inferInstanceAs (Decidable (charListLe a.data b.data = true))

/-- The comparison used by `sorted(..., key=lambda k: str(k))`. -/
def keyLe (a b : PKey) : Prop := pyStrLe (keyRepr a) (keyRepr b)

instance : DecidableRel keyLe := fun a b =>
  inferInstanceAs (Decidable (pyStrLe (keyRepr a) (keyRepr b)))

instance : IsTotal PKey keyLe where
  total a b := by
    have h : ∀ x y : List Char, charListLe x y = true ∨ charListLe y x = true := by
      intro x
      induction x with
      | nil => intro y; left; rfl
      | cons a as ih =>
          intro y
          cases y with
          | nil => right; rfl
          | cons b bs =>
              by_cases hab : a = b
              · subst hab
                rcases ih bs with h1 | h1
                · left; simpa [charListLe] using h1
                · right; simpa [charListLe] using h1
              · have hne : a.toNat ≠ b.toNat := fun hEq =>
                  hab (Char.eq_of_val_eq (UInt32.eq_of_toBitVec_eq (BitVec.toNat_injective hEq)))
                rcases Nat.lt_or_ge a.toNat b.toNat with hlt | hge
                · left; simp [charListLe, hab, hlt]
                · right
                  have hba : b ≠ a := fun hEq => hab hEq.symm
                  have hlt2 : b.toNat < a.toNat :=
                    lt_of_le_of_ne hge (fun hEq => hne hEq.symm)
                  simp [charListLe, hba, hlt2]
    exact h (keyRepr a).data (keyRepr b).data

instance : IsTrans PKey keyLe where
  trans a b c hab hbc := by
    have h : ∀ x y z : List Char, charListLe x y = true → charListLe y z = true →
        charListLe x z = true := by
      intro x
      induction x with
      | nil => intro y z _ _; rfl
      | cons a as ih =>
          intro y z h1 h2
          cases y with
          | nil => simp [charListLe] at h1
          | cons b bs =>
              cases z with
              | nil => simp [charListLe] at h2
              | cons c cs =>
                  simp only [charListLe] at h1 h2 ⊢
                  by_cases hab2 : a = b
                  · subst hab2
                    rw [if_pos rfl] at h1
                    by_cases hbc2 : a = c
                    · subst hbc2
                      rw [if_pos rfl] at h2
                      rw [if_pos rfl]
                      exact ih bs cs h1 h2
                    · rw [if_neg hbc2] at h2 ⊢
                      exact h2
                  · rw [if_neg hab2] at h1
                    have hlt1 : a.toNat < b.toNat := of_decide_eq_true h1
                    by_cases hbc2 : b = c
                    · subst hbc2
                      rw [if_neg hab2]
                      exact decide_eq_true hlt1
                    · rw [if_neg hbc2] at h2
                      have hlt2 : b.toNat < c.toNat := of_decide_eq_true h2
                      have hlt3 : a.toNat < c.toNat := lt_trans hlt1 hlt2
                      have hac : a ≠ c := fun hEq => absurd hlt3 (by rw [hEq]; exact lt_irrefl _)
                      rw [if_neg hac]
                      exact decide_eq_true hlt3
    exact h (keyRepr a).data (keyRepr b).data (keyRepr c).data hab hbc

instance : IsAntisymm String pyStrLe where
  antisymm a b hab hba := by
    have h : ∀ x y : List Char, charListLe x y = true → charListLe y x = true → x = y := by
      intro x
      induction x with
      | nil =>
          intro y h1 h2
          cases y with
          | nil => rfl
          | cons b bs => simp [charListLe] at h2
      | cons a as ih =>
          intro y h1 h2
          cases y with
          | nil => simp [charListLe] at h1
          | cons b bs =>
              simp only [charListLe] at h1 h2
              by_cases hab2 : a = b
              · subst hab2
                rw [if_pos rfl] at h1 h2
                rw [ih bs h1 h2]
              · rw [if_neg hab2] at h1
                rw [if_neg (fun hEq => hab2 hEq.symm)] at h2
                exact absurd (lt_trans (of_decide_eq_true h1) (of_decide_eq_true h2))
                  (lt_irrefl _)
    exact congrArg String.mk (h a.data b.data hab hba)

/-- The first character of `str(k)`, which discriminates the three render
shapes of `keyRepr`. -/
def reprHead : PKey → Char
  | PKey.keyCode _ none => Char.ofNat 60
  | PKey.keyCode _ (some _) => Char.ofNat 39
  | PKey.key _ => Char.ofNat 75

/-- Python set insertion (`self.pressed_keys.add`), modelled on a duplicate
free list. -/
def setAdd {α : Type} [DecidableEq α] (s : List α) (k : α) : List α :=
  if k ∈ s then s else k :: s

/-- The held-key set accumulated by `_on_key_press` over a sequence of
presses (each press adds the canonical key to the set). -/
def heldSetOf (presses : List PKey) : List PKey :=
  presses.foldl setAdd []

/-- `KeybindListener._get_hotkey_str`: sort the held keys by `str`, format
each, and join with a fixed separator. -/
def getHotkeyStr (pressedKeys : List PKey) : String :=
  String.intercalate "+" ((List.insertionSort keyLe pressedKeys).filterMap fmtKey)

/-- `KeybindListener._on_key_release`: evaluate the held set; an empty
token fires nothing, otherwise the token goes to the debouncer. -/
def onKeyRelease (pressedKeys : List PKey) : Option String :=
  let h := getHotkeyStr pressedKeys
  if h = "" then none else some h

/-! ## Debouncer (`KeybindListener._trigger`) -/

/-- The fixed debounce interval, `0.35` seconds in the source. -/
def debounceInterval : ℚ := 35 / 100

/-- `KeybindListener._trigger` at wall-clock time `t` with last-accepted
time `deb`: accept and reset the clock iff more than the interval elapsed,
else silently drop.  Every source (keyboard, mouse, joystick) funnels into
this one function and shares the one `_debounce` cell and constant. -/
def triggerStep (deb : ℚ) (t : ℚ) (code : String) : ℚ × Option String :=
  if t - deb > debounceInterval then (t, some code) else (deb, none)

/-- A sequence of candidate firings `(time, code)` through the shared
debouncer, returning the final clock and the dispatched codes in order. -/
def runTriggerEvents (deb : ℚ) : List (ℚ × String) → ℚ × List String
  | [] => (deb, [])
  | (t, c) :: rest =>
      let r := triggerStep deb t c
      let rr := runTriggerEvents r.1 rest
      (rr.1, (r.2.elim [] (fun d => [d])) ++ rr.2)

/-! ## Mouse adapter (`KeybindListener._on_mouse_click`) -/

/-- Mouse buttons discarded at the source. -/
def IGNORED_MOUSE : List String := ["left", "right"]

/-- `KeybindListener._on_mouse_click`: releases and ignored buttons produce
nothing; any other press becomes a button token and goes to the debouncer. -/
def onMouseClick (deb : ℚ) (t : ℚ) (buttonName : String) (pressed : Bool) :
    ℚ × Option String :=
  if pressed = false then (deb, none)
  else if buttonName ∈ IGNORED_MOUSE then (deb, none)
  else triggerStep deb t ("<Button." ++ buttonName ++ ">")

/-! ## Joystick adapter (`KeybindListener._joy_loop`) -/

/-- A pygame `JOYBUTTONDOWN` event together with the identity data pygame
exposes for the originating device (hardware GUID when the driver surfaces
one, session-local device index, instance id).  `_joy_loop` reads only the
`button` field. -/
structure JoyButtonEvent where
  guid : Option String
  deviceIndex : Nat
  instanceId : Nat
  button : Nat
  deriving DecidableEq

/-- The token built by `_joy_loop` for a button-down event. -/
def joyBtnCode (e : JoyButtonEvent) : String :=
  "joybtn_" ++ toString e.button

/-- Modelled from the spec: the joystick identity the spec prescribes for
captured bindings — `prefer a hardware GUID when resolvable, falling back
to a session-local device index`.  Absent from the source, written here
only to compare against `joyBtnCode`. -/
def joyIdentitySpec (guid : Option String) (deviceIndex : Nat) : String :=
  match guid with
  | some g => g
  | none => toString deviceIndex

/-- Modelled from the spec: a joystick binding token carrying the
device identity of `joyIdentitySpec` alongside the button index. -/
def joyTokenSpec (e : JoyButtonEvent) : String :=
  joyIdentitySpec e.guid e.deviceIndex ++ ":joybtn_" ++ toString e.button

/-! ## Helper lemmas -/

/-- With the handler cleared, every dispatched firing is dropped: the state
is unchanged and no effect is emitted. -/
theorem runDispatches_handler_none (s : St) (h : s.handler = none) :
    ∀ codes : List String, runDispatches s codes = (s, []) := by
  intro codes
  induction codes with
  | nil => rfl
  | cons c rest ih =>
      have hd : dispatchAction s c = (s, []) := by
        unfold dispatchAction
        rw [h]
      simp only [runDispatches, hd, ih, List.nil_append]

/-- The head character of `str(k)` matches the shape discriminator. -/
theorem head_keyRepr (k : PKey) : (keyRepr k).data.head? = some (reprHead k) := by
  cases k with
  | keyCode vk c =>
      cases c with
      | none =>
          show (("<" ++ toString vk ++ ">")).data.head? = some (Char.ofNat 60)
          rw [String.data_append, String.data_append]
          have h1 : ("<" : String).data = [Char.ofNat 60] := rfl
          rw [h1]
          rfl
      | some ch =>
          show ((squote ++ String.singleton ch ++ squote)).data.head? = some (Char.ofNat 39)
          rw [String.data_append, String.data_append]
          have h1 : squote.data = [Char.ofNat 39] := rfl
          rw [h1]
          rfl
  | key n =>
      show (("Key." ++ n)).data.head? = some (Char.ofNat 75)
      rw [String.data_append]
      have h1 : ("Key." : String).data = [Char.ofNat 75, Char.ofNat 101, Char.ofNat 121, Char.ofNat 46] := rfl
      rw [h1]
      rfl

theorem fmtKey_factor (a b : PKey) (h : keyRepr a = keyRepr b) : fmtKey a = fmtKey b := by
  have hh : reprHead a = reprHead b := by
    have := congrArg (fun s => s.data.head?) h
    simp only [head_keyRepr] at this
    exact Option.some.inj this
  cases a with
  | keyCode vk c =>
      cases b with
      | keyCode vk2 c2 =>
          cases c with
          | none =>
              cases c2 with
              | none => rfl
              | some d => exact absurd hh (by simp [reprHead])
          | some d =>
              cases c2 with
              | none => exact absurd hh (by simp [reprHead])
              | some d2 =>
                  simp only [keyRepr] at h
                  simp only [fmtKey]
                  exact congrArg some h
      | key n =>
          cases c with
          | none => exact absurd hh (by simp [reprHead])
          | some d => exact absurd hh (by simp [reprHead])
  | key n =>
      cases b with
      | keyCode vk2 c2 =>
          cases c2 with
          | none => exact absurd hh (by simp [reprHead])
          | some d => exact absurd hh (by simp [reprHead])
      | key n2 =>
          simp only [keyRepr] at h
          simp only [fmtKey]
          exact congrArg some h

theorem map_proj_eq {α β γ : Type} (f : α → β) (g : α → γ)
    (hfg : ∀ a b, f a = f b → g a = g b) :
    ∀ l1 l2 : List α, l1.map f = l2.map f → l1.map g = l2.map g := by
  intro l1
  induction l1 with
  | nil =>
      intro l2 h
      cases l2 with
      | nil => rfl
      | cons b t => simp at h
  | cons a t ih =>
      intro l2 h
      cases l2 with
      | nil => simp at h
      | cons b t2 =>
          simp only [List.map_cons, List.cons.injEq] at h ⊢
          exact ⟨hfg a b h.1, ih t2 h.2⟩

theorem mem_foldl_setAdd {α : Type} [DecidableEq α] (l : List α) :
    ∀ (acc : List α) (a : α), a ∈ l.foldl setAdd acc ↔ a ∈ acc ∨ a ∈ l := by
  induction l with
  | nil => intro acc a; simp
  | cons x t ih =>
      intro acc a
      rw [List.foldl_cons, ih]
      unfold setAdd
      by_cases hx : x ∈ acc
      · rw [if_pos hx]
        simp only [List.mem_cons]
        constructor
        · rintro (h | h)
          · exact Or.inl h
          · exact Or.inr (Or.inr h)
        · rintro (h | h | h)
          · exact Or.inl h
          · exact Or.inl (h ▸ hx)
          · exact Or.inr h
      · rw [if_neg hx]
        simp only [List.mem_cons]
        tauto

theorem nodup_foldl_setAdd {α : Type} [DecidableEq α] (l : List α) :
    ∀ acc : List α, acc.Nodup → (l.foldl setAdd acc).Nodup := by
  induction l with
  | nil => intro acc h; exact h
  | cons x t ih =>
      intro acc h
      rw [List.foldl_cons]
      apply ih
      unfold setAdd
      by_cases hx : x ∈ acc
      · rw [if_pos hx]; exact h
      · rw [if_neg hx]; exact List.Nodup.cons hx h

theorem heldSetOf_perm (l1 l2 : List PKey) (h : List.Perm l1 l2) :
    List.Perm (heldSetOf l1) (heldSetOf l2) := by
  have n1 : (heldSetOf l1).Nodup := nodup_foldl_setAdd l1 [] List.nodup_nil
  have n2 : (heldSetOf l2).Nodup := nodup_foldl_setAdd l2 [] List.nodup_nil
  rw [List.perm_ext_iff_of_nodup n1 n2]
  intro a
  unfold heldSetOf
  rw [mem_foldl_setAdd, mem_foldl_setAdd]
  simp [h.mem_iff]

theorem getHotkeyStr_perm (l1 l2 : List PKey) (h : List.Perm l1 l2) :
    getHotkeyStr (heldSetOf l1) = getHotkeyStr (heldSetOf l2) := by
  have hperm := heldSetOf_perm l1 l2 h
  have p : List.Perm (List.insertionSort keyLe (heldSetOf l1))
      (List.insertionSort keyLe (heldSetOf l2)) :=
    ((List.perm_insertionSort keyLe _).trans hperm).trans
      (List.perm_insertionSort keyLe _).symm
  have s1 : List.Sorted keyLe (List.insertionSort keyLe (heldSetOf l1)) :=
    List.sorted_insertionSort keyLe _
  have s2 : List.Sorted keyLe (List.insertionSort keyLe (heldSetOf l2)) :=
    List.sorted_insertionSort keyLe _
  have m1 : List.Sorted pyStrLe ((List.insertionSort keyLe (heldSetOf l1)).map keyRepr) := by
    unfold List.Sorted
    rw [List.pairwise_map]
    exact s1
  have m2 : List.Sorted pyStrLe ((List.insertionSort keyLe (heldSetOf l2)).map keyRepr) := by
    unfold List.Sorted
    rw [List.pairwise_map]
    exact s2
  have e : (List.insertionSort keyLe (heldSetOf l1)).map keyRepr =
      (List.insertionSort keyLe (heldSetOf l2)).map keyRepr :=
    List.eq_of_perm_of_sorted (p.map keyRepr) m1 m2
  have e2 : (List.insertionSort keyLe (heldSetOf l1)).map fmtKey =
      (List.insertionSort keyLe (heldSetOf l2)).map fmtKey :=
    map_proj_eq keyRepr fmtKey fmtKey_factor _ _ e
  have e3 : (List.insertionSort keyLe (heldSetOf l1)).filterMap fmtKey =
      (List.insertionSort keyLe (heldSetOf l2)).filterMap fmtKey := by
    have lhs : ∀ L : List PKey, L.filterMap fmtKey = (L.map fmtKey).filterMap id := by
      intro L
      rw [List.filterMap_map]
      rfl
    rw [lhs, lhs, e2]
  unfold getHotkeyStr
  rw [e3]

/-! ## Claims -/

/-- C3: from Inactive, a firing whose token equals the stored keybind calls
Activate; on success the controller shows Activated, installs the trigger
handler and starts the background poller; on failure it stays Inactive,
surfaces the failure reason in a dialog and re-arms the activation
handler. -/
theorem inactive_activation_transition (c : Cfg) (o : ActivateOutcome) :
    (dispatchAction (initialMainState c) c.keybind).2 = [Out.callActivate] ∧
    (dispatchAction (initialMainState c) c.keybind).1.handler = none ∧
    ((httpActivate o).1 = true →
      (onActivationResult (dispatchAction (initialMainState c) c.keybind).1
        (httpActivate o).1 (httpActivate o).2).1.status = UIStatus.activated ∧
      (onActivationResult (dispatchAction (initialMainState c) c.keybind).1
        (httpActivate o).1 (httpActivate o).2).1.isActive = true ∧
      (onActivationResult (dispatchAction (initialMainState c) c.keybind).1
        (httpActivate o).1 (httpActivate o).2).1.handler = some Handler.trigger ∧
      (onActivationResult (dispatchAction (initialMainState c) c.keybind).1
        (httpActivate o).1 (httpActivate o).2).1.poller = true) ∧
    ((httpActivate o).1 = false →
      (onActivationResult (dispatchAction (initialMainState c) c.keybind).1
        (httpActivate o).1 (httpActivate o).2).1.status = UIStatus.inactive ∧
      (onActivationResult (dispatchAction (initialMainState c) c.keybind).1
        (httpActivate o).1 (httpActivate o).2).1.isActive = false ∧
      (onActivationResult (dispatchAction (initialMainState c) c.keybind).1
        (httpActivate o).1 (httpActivate o).2).1.handler = some Handler.activation ∧
      (onActivationResult (dispatchAction (initialMainState c) c.keybind).1
        (httpActivate o).1 (httpActivate o).2).1.poller = false ∧
      (onActivationResult (dispatchAction (initialMainState c) c.keybind).1
        (httpActivate o).1 (httpActivate o).2).2 =
        [Out.dialog "Activation Failed" (httpActivate o).2]) := by
  refine ⟨?_, ?_, ?_, ?_⟩
  · simp [dispatchAction, initialMainState, handleActivationBegin]
  · simp [dispatchAction, initialMainState, handleActivationBegin]
  · intro h
    rw [h]
    simp [dispatchAction, initialMainState, handleActivationBegin,
      onActivationResult, updateStatusDisplay]
  · intro h
    rw [h]
    simp [dispatchAction, initialMainState, handleActivationBegin,
      onActivationResult, updateStatusDisplay]

theorem inactive_activation_transition_witness :
    (httpActivate (ActivateOutcome.ok "done")).1 = true ∧
    (onActivationResult (dispatchAction (initialMainState cfg0) cfg0.keybind).1
      (httpActivate (ActivateOutcome.ok "done")).1
      (httpActivate (ActivateOutcome.ok "done")).2).1.status = UIStatus.activated :=
  ⟨rfl, ((inactive_activation_transition cfg0 (ActivateOutcome.ok "done")).2.2.1 rfl).1⟩

/-- C10: in the post-setup states, a dispatched token different from the
stored keybind issues no remote call and leaves the whole state (session
state, displayed status, handler) unchanged. -/
theorem nonmatching_token_frame (s : St) (c : Cfg) (code : String)
    (hc : s.cfg = some c) (hne : code ≠ c.keybind)
    (hh : s.handler = some Handler.activation ∨ s.handler = some Handler.trigger) :
    dispatchAction s code = (s, []) := by
  rcases hh with h | h <;>
    simp [dispatchAction, h, handleActivationBegin, handleTriggerBegin, hc, hne]

theorem nonmatching_token_frame_witness :
    dispatchAction activatedState "other" = (activatedState, []) :=
  nonmatching_token_frame activatedState cfg0 "other" rfl (by decide) (Or.inr rfl)

/-- C5: capture sequences — for distinct tokens A and B, [A, A] completes
with bound token A; [A, B, A, A] completes with bound token A after the
mismatch resets the recorded token; [A] alone stays awaiting confirmation
with the handler still in capture mode. -/
theorem capture_sequences (A B : String) (hAB : A ≠ B) :
    ((runDispatches setupState [A, A]).1.handler = none ∧
     (runDispatches setupState [A, A]).1.firstPress = some A) ∧
    ((runDispatches setupState [A, B, A, A]).1.handler = none ∧
     (runDispatches setupState [A, B, A, A]).1.firstPress = some A) ∧
    ((runDispatches setupState [A]).1.handler = some Handler.capture ∧
     (runDispatches setupState [A]).1.firstPress = some A) := by
  have hBA : ¬ (B = A) := fun h => hAB h.symm
  refine ⟨⟨?_, ?_⟩, ⟨?_, ?_⟩, ?_, ?_⟩ <;>
    simp [runDispatches, dispatchAction, setupState, updateCaptureUI, hBA]

theorem capture_sequences_witness :
    (runDispatches setupState ["a", "b", "a", "a"]).1.handler = none ∧
    (runDispatches setupState ["a", "b", "a", "a"]).1.firstPress = some "a" :=
  (capture_sequences "a" "b" (by decide)).2.1

/-- C4: `_http_am_i_lead` is fail-closed — every transport or parse error
yields `false` — and a poll observing not-lead while the session is active
in Activated or InSession forces the state to Inactive, plays the exit
chime, shows the revocation dialog, re-arms activation, and ends the
poll loop. -/
theorem poll_fail_closed_revocation (s : St) (c : Cfg) (e : PollErr) (o : PollOutcome)
    (hc : s.cfg = some c) (ha : s.isActive = true)
    (hst : s.status = UIStatus.activated ∨ s.status = UIStatus.inSession) :
    httpAmILead (PollOutcome.exn e) = false ∧
    (httpAmILead o = false →
      (pollStep s (httpAmILead o)).1.status = UIStatus.inactive ∧
      (pollStep s (httpAmILead o)).1.isActive = false ∧
      (pollStep s (httpAmILead o)).1.handler = some Handler.activation ∧
      (pollStep s (httpAmILead o)).2.1 =
        [Out.chimeExit, Out.dialog "Deactivated" "Server revoked your Team-Lead role."] ∧
      (pollStep s (httpAmILead o)).2.2 = false) := by
  refine ⟨rfl, ?_⟩
  intro h
  rw [h]
  simp [pollStep, hc, ha, onDeactivatedByServer, updateStatusDisplay]

theorem poll_fail_closed_revocation_witness :
    httpAmILead (PollOutcome.exn (PollErr.transport "timeout")) = false ∧
    (pollStep activatedState
      (httpAmILead (PollOutcome.exn (PollErr.transport "timeout")))).1.status =
      UIStatus.inactive :=
  ⟨(poll_fail_closed_revocation activatedState cfg0 (PollErr.transport "timeout")
      (PollOutcome.exn (PollErr.transport "timeout")) rfl rfl (Or.inl rfl)).1,
   ((poll_fail_closed_revocation activatedState cfg0 (PollErr.transport "timeout")
      (PollOutcome.exn (PollErr.transport "timeout")) rfl rfl (Or.inl rfl)).2 rfl).1⟩

/-- C2 (amended): a matching firing in the trigger states issues the
Trigger call; the response text (lowercased by `_http_trigger`) is
classified by substring containment with `started` checked first — a
response containing `started` sets InSession and plays the enter chime; a
response without `started` but containing `ended` or `left` sets Activated
and plays the exit chime; any other response changes nothing. -/
theorem trigger_classification (s : St) (c : Cfg) (t resp : String)
    (hc : s.cfg = some c) (hh : s.handler = some Handler.trigger) :
    (dispatchAction s c.keybind).2 = [Out.callTrigger] ∧
    httpTrigger (TriggerOutcome.ok t) = strLower t ∧
    (strContains resp "started" = true →
      (onTriggerResult s resp).1.status = UIStatus.inSession ∧
      (onTriggerResult s resp).2 = [Out.chimeEnter]) ∧
    (strContains resp "started" = false →
      (strContains resp "ended" = true ∨ strContains resp "left" = true) →
      (onTriggerResult s resp).1.status = UIStatus.activated ∧
      (onTriggerResult s resp).2 = [Out.chimeExit]) ∧
    (strContains resp "started" = false → strContains resp "ended" = false →
      strContains resp "left" = false →
      onTriggerResult s resp = (s, [])) := by
  refine ⟨?_, rfl, ?_, ?_, ?_⟩
  · simp [dispatchAction, hh, handleTriggerBegin, hc]
  · intro h
    simp [onTriggerResult, h, updateStatusDisplay]
  · intro h1 h2
    rcases h2 with h2 | h2 <;>
      simp [onTriggerResult, h1, h2, updateStatusDisplay]
  · intro h1 h2 h3
    simp [onTriggerResult, h1, h2, h3]

theorem trigger_classification_witness :
    strContains "whisper session started" "started" = true ∧
    (onTriggerResult activatedState "whisper session started").1.status =
      UIStatus.inSession :=
  ⟨by decide,
   ((trigger_classification activatedState cfg0 "X" "whisper session started"
      rfl rfl).2.2.1 (by decide)).1⟩

/-- C2 (counterexample): in InSession, the response text
`session started right after the previous one ended` contains `ended`, yet
the controller stays InSession because `started` is checked first — the
claim as stated demands a move back to Activated. -/
theorem trigger_classification_cex :
    inSessionState.status = UIStatus.inSession ∧
    httpTrigger (TriggerOutcome.ok "Session STARTED right after the previous one ENDED") =
      "session started right after the previous one ended" ∧
    strContains "session started right after the previous one ended" "ended" = true ∧
    (onTriggerResult inSessionState
      "session started right after the previous one ended").1.status =
      UIStatus.inSession ∧
    UIStatus.inSession ≠ UIStatus.activated := by
  refine ⟨rfl, by decide, by decide, by decide, by decide⟩

/-- C1 (amended): while an Activate call is outstanding the hotkey is
disabled — `_handle_activation` clears the handler before calling, every
dispatched firing is dropped until the result installs a handler again —
but a Trigger call leaves the handler armed, so the trigger states admit
concurrent Trigger calls. -/
theorem activation_in_flight_disables_hotkey (s : St) (c : Cfg)
    (hc : s.cfg = some c) (hh : s.handler = some Handler.activation) :
    (dispatchAction s c.keybind).2 = [Out.callActivate] ∧
    (dispatchAction s c.keybind).1.handler = none ∧
    (∀ codes : List String,
      runDispatches (dispatchAction s c.keybind).1 codes =
        ((dispatchAction s c.keybind).1, [])) ∧
    (∀ ok2 msg, (onActivationResult (dispatchAction s c.keybind).1 ok2 msg).1.handler =
      some (if ok2 then Handler.trigger else Handler.activation)) ∧
    (∀ s2 : St, s2.cfg = some c → s2.handler = some Handler.trigger →
      (dispatchAction s2 c.keybind).2 = [Out.callTrigger] ∧
      (dispatchAction s2 c.keybind).1.handler = some Handler.trigger) := by
  have hd : dispatchAction s c.keybind =
      ({ s with handler := none }, [Out.callActivate]) := by
    simp [dispatchAction, hh, handleActivationBegin, hc]
  refine ⟨by rw [hd], by rw [hd], ?_, ?_, ?_⟩
  · intro codes
    exact runDispatches_handler_none _ (by rw [hd]) codes
  · intro ok2 msg
    cases ok2 <;> simp [onActivationResult, updateStatusDisplay]
  · intro s2 hc2 hh2
    constructor <;> simp [dispatchAction, hh2, handleTriggerBegin, hc2]

theorem activation_in_flight_disables_hotkey_witness :
    runDispatches (dispatchAction (initialMainState cfg0) cfg0.keybind).1 ["k", "k"] =
      ((dispatchAction (initialMainState cfg0) cfg0.keybind).1, []) :=
  (activation_in_flight_disables_hotkey (initialMainState cfg0) cfg0 rfl rfl).2.2.1 ["k", "k"]

/-- C1 (counterexample): in Activated with keybind `k`, two dispatched
matching firings with no intervening call result issue two Trigger calls —
the second firing is not suppressed, so two session-mutating calls can be
in flight at once. -/
theorem trigger_overlap_cex :
    activatedState.cfg = some cfg0 ∧ cfg0.keybind = "k" ∧
    (runDispatches activatedState ["k", "k"]).2 =
      [Out.callTrigger, Out.callTrigger] := by
  refine ⟨rfl, rfl, by decide⟩

/-- C7: the debouncer shares one fixed interval and one clock across all
action kinds — after an accepted firing, a second candidate less than the
interval later is silently dropped (one dispatch, clock not reset), and a
second candidate more than the interval later is accepted (two dispatches,
clock reset to its time). -/
theorem debounce_two_firings (deb0 t1 t2 : ℚ) (c1 c2 : String)
    (h1 : t1 - deb0 > debounceInterval) :
    (t2 - t1 < debounceInterval →
      runTriggerEvents deb0 [(t1, c1), (t2, c2)] = (t1, [c1])) ∧
    (t2 - t1 > debounceInterval →
      runTriggerEvents deb0 [(t1, c1), (t2, c2)] = (t2, [c1, c2])) := by
  constructor
  · intro h2
    have hn : ¬ (t2 - t1 > debounceInterval) := by linarith
    simp [runTriggerEvents, triggerStep, h1, hn]
  · intro h2
    simp [runTriggerEvents, triggerStep, h1, h2]

theorem debounce_two_firings_witness :
    runTriggerEvents 0 [(1, "a"), ((6 : ℚ)/5, "b")] = (1, ["a"]) ∧
    runTriggerEvents 0 [(1, "a"), (2, "b")] = (2, ["a", "b"]) :=
  ⟨(debounce_two_firings 0 1 ((6 : ℚ)/5) "a" "b"
      (by norm_num [debounceInterval])).1 (by norm_num [debounceInterval]),
   (debounce_two_firings 0 1 2 "a" "b"
      (by norm_num [debounceInterval])).2 (by norm_num [debounceInterval])⟩

/-- C8: a primary (`left`) or secondary (`right`) mouse click never
produces a token and never reaches the dispatcher — the adapter returns
no code and leaves the debounce clock untouched, for presses and
releases alike, so no downstream handler in any phase can observe it. -/
theorem mouse_left_right_ignored (deb t : ℚ) (pressed : Bool) :
    onMouseClick deb t "left" pressed = (deb, none) ∧
    onMouseClick deb t "right" pressed = (deb, none) := by
  cases pressed <;> constructor <;> simp [onMouseClick, IGNORED_MOUSE]

/-- C9 (amended): the joystick token carries the button index only —
`joybtn_<n>` — with no device GUID or index, so a binding captured with
button 3 fires for button 3 from any device under any later enumeration
index. -/
theorem joy_token_button_only (e1 e2 : JoyButtonEvent) (h : e1.button = e2.button) :
    joyBtnCode e1 = joyBtnCode e2 := by
  unfold joyBtnCode
  rw [h]

theorem joy_token_button_only_witness :
    joyBtnCode { guid := some "g", deviceIndex := 0, instanceId := 1, button := 3 } =
      joyBtnCode { guid := some "g", deviceIndex := 5, instanceId := 2, button := 3 } :=
  joy_token_button_only
    { guid := some "g", deviceIndex := 0, instanceId := 1, button := 3 }
    { guid := some "g", deviceIndex := 5, instanceId := 2, button := 3 } rfl

/-- C9 (counterexample): two devices with different GUIDs and different
indices yield the same code for button 3, while the spec-modelled
GUID-preferring identity distinguishes them — the source token includes no
device identity at all. -/
theorem joy_guid_identity_cex :
    joyBtnCode { guid := some "guid-a", deviceIndex := 0, instanceId := 7, button := 3 } =
      joyBtnCode { guid := some "guid-b", deviceIndex := 1, instanceId := 9, button := 3 } ∧
    joyTokenSpec { guid := some "guid-a", deviceIndex := 0, instanceId := 7, button := 3 } ≠
      joyTokenSpec { guid := some "guid-b", deviceIndex := 1, instanceId := 9, button := 3 } := by
  refine ⟨rfl, by decide⟩

/-- C6: hotkey token derivation is commutative over press order — any two
press sequences that are permutations of each other accumulate held sets
yielding the identical canonical token, and the release-time evaluation
fires the identical code. -/
theorem hotkey_token_commutative (l1 l2 : List PKey) (h : List.Perm l1 l2) :
    getHotkeyStr (heldSetOf l1) = getHotkeyStr (heldSetOf l2) ∧
    onKeyRelease (heldSetOf l1) = onKeyRelease (heldSetOf l2) := by
  have e := getHotkeyStr_perm l1 l2 h
  exact ⟨e, by unfold onKeyRelease; rw [e]⟩

theorem hotkey_token_commutative_witness :
    List.Perm [PKey.key "ctrl", PKey.key "shift"] [PKey.key "shift", PKey.key "ctrl"] ∧
    getHotkeyStr (heldSetOf [PKey.key "ctrl", PKey.key "shift"]) =
      getHotkeyStr (heldSetOf [PKey.key "shift", PKey.key "ctrl"]) ∧
    getHotkeyStr (heldSetOf [PKey.key "ctrl", PKey.key "shift"]) = "Key.ctrl+Key.shift" :=
  ⟨by decide,
   (hotkey_token_commutative [PKey.key "ctrl", PKey.key "shift"]
      [PKey.key "shift", PKey.key "ctrl"] (by decide)).1,
   by decide⟩
